import Mathlib

/-!
# Verification of the dice-rolling core of SalmonCool/dnd-application

Shallow embedding of the interactive logic of the repository:

* `src/src/App.tsx` — the root component holding the Multiplier Overlay
  state (`displayValue`, `multiplier`) and the die selector (`selectedDice`),
  with handlers `handleRollComplete`, `handleMultiply`, `handleResetMultiplier`.
* `src/src/components/3d/D20Dice.tsx` — the twenty-sided die component
  (state `isRolling`, `rollValue`; click handler with a 1500 ms timeout)
  and, in the same bundle, the six-sided die component `D6Dice`
  (additional `isSettling` state, `targetRotation`, and an
  `onRollComplete` callback prop reported to the parent).

JavaScript `number` values are modelled as exact rationals (`ℚ`); die
outcomes, produced by `Math.floor(Math.random() * N) + 1`, are integers
(`ℤ`).  React component-local state is carried explicitly; the one piece
of framework semantics used is that a state setter of an unmounted
component instance is a no-op, which we model by tagging every pending
`setTimeout` callback with the identifier of the component instance that
scheduled it.
-/

namespace DndApp

/-- The two available dice, `type DiceType = 'd20' | 'd6'` in `App.tsx`. -/
inductive DiceType where
  | d20
  | d6
deriving DecidableEq, Repr

/-- The Multiplier Overlay / die-selector state owned by the `App`
component: `displayValue : number | null`, `multiplier : number`
(initially 1), `selectedDice : DiceType` (initially `'d20'`). -/
structure AppState where
  displayValue : Option ℚ
  multiplier : ℚ
  selectedDice : DiceType
deriving DecidableEq, Repr

/-- Initial `App` state: `useState<number | null>(null)`, `useState(1)`,
`useState<DiceType>('d20')`. -/
def AppState.init : AppState := ⟨none, 1, DiceType.d20⟩

/-- `handleRollComplete` in `App.tsx`: sets `displayValue` to the reported
value and resets `multiplier` to 1. -/
def handleRollComplete (value : ℤ) (a : AppState) : AppState :=
  { a with displayValue := some (value : ℚ), multiplier := 1 }

/-- `handleMultiply` in `App.tsx`: if `displayValue !== null`, multiplies
`displayValue` and `multiplier` by the factor; otherwise does nothing. -/
def handleMultiply (factor : ℚ) (a : AppState) : AppState :=
  match a.displayValue with
  | none => a
  | some v =>
      { a with displayValue := some (v * factor), multiplier := a.multiplier * factor }

/-- `handleResetMultiplier` in `App.tsx`: if `displayValue !== null` and
`multiplier > 1`, divides `displayValue` by `multiplier` and resets
`multiplier` to 1; otherwise does nothing. -/
def handleResetMultiplier (a : AppState) : AppState :=
  match a.displayValue with
  | none => a
  | some v =>
      if 1 < a.multiplier then
        { a with displayValue := some (v / a.multiplier), multiplier := 1 }
      else a

/-- The outcome policy of both dice: `Math.floor(Math.random() * N) + 1`
applied to a uniform draw `u ∈ [0, 1)` (`D20Dice.tsx` with `N = 20`,
`D6Dice.tsx` with `N = 6`). -/
def rollResult (n : ℕ) (u : ℚ) : ℤ := ⌊u * (n : ℚ)⌋ + 1

/-- Component-local state of the six-sided die (`D6Dice.tsx`):
`isRolling`, `rollValue : number | null`, `isSettling`. -/
structure D6State where
  isRolling : Bool
  rollValue : Option ℤ
  isSettling : Bool
deriving DecidableEq, Repr

/-- Fresh `D6Dice` instance: `useState(false)`, `useState<number | null>(null)`,
`useState(false)`. -/
def D6State.init : D6State := ⟨false, none, false⟩

/-- Component-local state of the twenty-sided die (`D20Dice.tsx`):
`isRolling`, `rollValue : number | null`. -/
structure D20State where
  isRolling : Bool
  rollValue : Option ℤ
deriving DecidableEq, Repr

/-- Fresh `D20Dice` instance: `useState(false)`, `useState<number | null>(null)`. -/
def D20State.init : D20State := ⟨false, none⟩

/-- A pending `setTimeout` callback scheduled by a click handler.  It
captures which die variant's handler scheduled it and the identifier of
the component instance whose state setters it closes over. -/
structure Timer where
  owner : ℕ
  die : DiceType
deriving DecidableEq, Repr

/-- Whole-system state: the `App` state, the identifier of the currently
mounted die instance, the local state of the mounted six- and
twenty-sided die instances, the FIFO queue of pending 1500 ms timers
(all timeouts share the same delay, so they fire in scheduling order),
and the log of values delivered to `onRollComplete` — the roll-completion
notifications received by the parent `App`. -/
structure Sys where
  app : AppState
  instId : ℕ
  d6 : D6State
  d20 : D20State
  timers : List Timer
  notifLog : List ℤ
deriving DecidableEq, Repr

/-- Initial system state: `App` initial state, first die instance mounted
fresh, no pending timers, no notifications delivered. -/
def Sys.init : Sys := ⟨AppState.init, 0, D6State.init, D20State.init, [], []⟩

/-- `handleClick` of `D6Dice.tsx`: `if (isRolling) return`; otherwise it
plays the roll sound (out of scope), sets `isRolling` to true, clears
`rollValue`, and schedules a 1500 ms completion timer.  `isSettling` is
not touched. -/
def d6HandleClick (s : Sys) : Sys :=
  if s.d6.isRolling then s
  else
    { s with
        d6 := { s.d6 with isRolling := true, rollValue := none },
        timers := s.timers ++ [⟨s.instId, DiceType.d6⟩] }

/-- `handleClick` of `D20Dice.tsx`: `if (isRolling) return`; otherwise it
sets `isRolling` to true, clears `rollValue`, and schedules a 1500 ms
completion timer. -/
def d20HandleClick (s : Sys) : Sys :=
  if s.d20.isRolling then s
  else
    { s with
        d20 := { s.d20 with isRolling := true, rollValue := none },
        timers := s.timers ++ [⟨s.instId, DiceType.d20⟩] }

/-- Fire the oldest pending timer with a uniform draw `u`.

`D6Dice` timeout body: `setIsRolling(false)`, computes
`result = Math.floor(Math.random() * 6) + 1`, `setRollValue(result)`,
calls `onRollComplete(result)` (the parent `App`'s `handleRollComplete`),
stores the target rotation, and `setIsSettling(true)`.  The component
state setters are no-ops when the scheduling instance has been unmounted
(owner ≠ current instance), but `onRollComplete` is a captured prop of
the still-mounted `App` and runs unconditionally.

`D20Dice` timeout body: `setIsRolling(false)`, computes
`result = Math.floor(Math.random() * 20) + 1`, `setRollValue(result)`,
and snaps the mesh rotation.  It calls no `onRollComplete` — the
component's props interface has no such callback. -/
def fireTimer (u : ℚ) (s : Sys) : Sys :=
  match s.timers with
  | [] => s
  | t :: rest =>
      match t.die with
      | DiceType.d6 =>
          let r := rollResult 6 u
          let s₁ :=
            if t.owner = s.instId then
              { s with
                  d6 := { isRolling := false, rollValue := some r, isSettling := true },
                  timers := rest }
            else { s with timers := rest }
          { s₁ with
              app := handleRollComplete r s₁.app,
              notifLog := s₁.notifLog ++ [r] }
      | DiceType.d20 =>
          let r := rollResult 20 u
          if t.owner = s.instId then
            { s with
                d20 := { isRolling := false, rollValue := some r },
                timers := rest }
          else { s with timers := rest }

/-- Modelled from the spec: the current `Scene.tsx` is not under `src/`
(only an earlier revision without die selection is).  Per §4.4 of the
spec, switching the selected die type unmounts the previous Roll Engine
instance (discarding its state) and mounts a fresh one at Idle; selecting
the already-active type re-renders the same instance without remounting.
The `App.tsx` side is from source: the sidebar buttons call only
`setSelectedDice`. -/
def switchDie (d : DiceType) (s : Sys) : Sys :=
  if s.app.selectedDice = d then s
  else
    { s with
        app := { s.app with selectedDice := d },
        instId := s.instId + 1,
        d6 := D6State.init,
        d20 := D20State.init }

/-- The external events of the system: a click on the mounted die, the
firing of the oldest pending completion timer (with its uniform draw), a
die-selector button press, and the Multiplier Overlay buttons. -/
inductive Ev where
  | click
  | fire (u : ℚ)
  | switch (d : DiceType)
  | multiply (f : ℚ)
  | reset
deriving Repr

/-- One step of the system: dispatch an event to the handler the source
wires it to.  A click reaches the `handleClick` of whichever die the
`Scene` currently mounts; `multiply`/`reset` are the `App` button
handlers. -/
def step (e : Ev) (s : Sys) : Sys :=
  match e with
  | Ev.click =>
      match s.app.selectedDice with
      | DiceType.d6 => d6HandleClick s
      | DiceType.d20 => d20HandleClick s
  | Ev.fire u => fireTimer u s
  | Ev.switch d => switchDie d s
  | Ev.multiply f => { s with app := handleMultiply f s.app }
  | Ev.reset => { s with app := handleResetMultiplier s.app }

/-- Run a list of events from the initial system state. -/
def run (evs : List Ev) : Sys := evs.foldl (fun s e => step e s) Sys.init

/-! ## Face-Orientation Tables

The source stores Euler angles as JavaScript numbers; the six-sided
table uses exact multiples of `Math.PI`, the twenty-sided table uses
decimal literals.  An angle is represented exactly as `q + piCoeff * π`
with rational `q` and `piCoeff`, which keeps the decimal `3.14` of the
twenty-sided table distinct from `π`. -/

/-- An Euler angle `q + piCoeff * π` with exact rational components. -/
structure Angle where
  q : ℚ
  piCoeff : ℚ
deriving DecidableEq, Repr

/-- A plain decimal angle (π-coefficient 0). -/
def deg (a : ℚ) : Angle := ⟨a, 0⟩

/-- A pure multiple of `Math.PI`. -/
def piMul (b : ℚ) : Angle := ⟨0, b⟩

/-- `FACE_UP_ROTATIONS` of `D20Dice.tsx`: index 0 = roll of 1, index 19 =
roll of 20; each entry is an `[x, y, z]` Euler rotation in radians,
hand-tuned decimal literals. -/
def d20FaceUpRotations : List (Angle × Angle × Angle) :=
  [ (deg 2, deg 0, deg 0),
    (deg 1.2, deg 0, deg 0),
    (deg (-0.7), deg (-0.6), deg (-0.2)),
    (deg 2, deg (-0.3), deg (-0.6)),
    (deg 1.6, deg 2.7, deg (-1.2)),
    (deg 0.5, deg (-1.5), deg 0),
    (deg 0, deg 0.45, deg 0),
    (deg (-0.3), deg 1.6, deg 0),
    (deg 1.7, deg 0.8, deg 1.2),
    (deg 0, deg (-2.7), deg 0),
    (deg (-1.2), deg 3.14, deg 0),
    (deg 2, deg 0.3, deg 0.6),
    (deg (-1.2), deg 0, deg 0),
    (deg 0.7, deg 0.8, deg 0),
    (deg (-0.3), deg (-1.6), deg 0),
    (deg 0, deg (-0.45), deg 0),
    (deg (-0.7), deg 2.5, deg 0.2),
    (deg (-0.7), deg 0.6, deg 0.2),
    (deg (-0.7), deg (-2.5), deg (-0.2)),
    (deg 0.8, deg (-0.8), deg 0) ]

/-- `FACE_UP_ROTATIONS` of `D6Dice.tsx`: index 0 = roll of 1, index 5 =
roll of 6; entries are exact multiples of `Math.PI`. -/
def d6FaceUpRotations : List (Angle × Angle × Angle) :=
  [ (piMul 0, piMul 0, piMul 0),
    (piMul 0, piMul (-1/2), piMul 0),
    (piMul (1/2), piMul 0, piMul 0),
    (piMul (-1/2), piMul 0, piMul 0),
    (piMul 0, piMul (1/2), piMul 0),
    (piMul 0, piMul 1, piMul 0) ]

/-- The twenty-sided lookup `FACE_UP_ROTATIONS[result - 1]` performed in
the `D20Dice` timeout body. -/
def d20OrientationOf (outcome : ℕ) : Option (Angle × Angle × Angle) :=
  d20FaceUpRotations[outcome - 1]?

/-- The six-sided lookup `FACE_UP_ROTATIONS[result - 1]` performed in the
`D6Dice` timeout body. -/
def d6OrientationOf (outcome : ℕ) : Option (Angle × Angle × Angle) :=
  d6FaceUpRotations[outcome - 1]?

/-! ## The six-sided settling frame

The settling branch of `D6Dice`'s `useFrame` callback operates on plain
numeric rotation components (no `π` constants enter the computation
itself), modelled as exact rationals. -/

/-- `MathUtils.lerp` of three.js: `x + (y - x) * t`. -/
def lerp (x y t : ℚ) : ℚ := x + (y - x) * t

/-- A 3-axis rotation value with exact rational components. -/
structure Rot3 where
  x : ℚ
  y : ℚ
  z : ℚ
deriving DecidableEq, Repr

/-- The settling branch of `D6Dice.tsx`'s `useFrame` callback, run when
`isSettling` is true: lerps each rotation axis toward the target with
factor `25 * delta`, then, if every new axis is within `0.1` of its
target, snaps the rotation to the exact target and ends settling.
Returns the new rotation and the new `isSettling` flag (the settle sound
is out of scope). -/
def d6SettleFrame (rot target : Rot3) (delta : ℚ) : Rot3 × Bool :=
  let lerpFactor := 25 * delta
  let nx := lerp rot.x target.x lerpFactor
  let ny := lerp rot.y target.y lerpFactor
  let nz := lerp rot.z target.z lerpFactor
  let threshold : ℚ := 0.1
  let dx := |nx - target.x|
  let dy := |ny - target.y|
  let dz := |nz - target.z|
  if dx < threshold ∧ dy < threshold ∧ dz < threshold then
    (⟨target.x, target.y, target.z⟩, false)
  else
    (⟨nx, ny, nz⟩, true)

/-! ## The twenty-sided result overlay text -/

/-- The result `Text` of `D20Dice.tsx`: rendered only when `rollValue`
is truthy and `!isRolling`; its content is `"CRITICAL HIT!"` for a 20,
`"CRITICAL FAIL!"` for a 1, and `` `Rolled: ${rollValue}` `` otherwise. -/
def d20ResultText (rollValue : Option ℤ) (isRolling : Bool) : Option String :=
  match rollValue with
  | none => none
  | some v =>
      if v = 0 then none
      else if isRolling then none
      else some
        (if v = 20 then "CRITICAL HIT!"
         else if v = 1 then "CRITICAL FAIL!"
         else "Rolled: " ++ toString v)

/-! ## The Multiplier Overlay in isolation

For the overlay invariant we track, alongside the `App` handlers acting
on the real state, the value delivered by the most recent
roll-completion notification. -/

/-- Multiplier Overlay state plus the observation of the most recent
roll-completion notification's value. -/
structure Overlay where
  app : AppState
  lastOutcome : Option ℤ
deriving DecidableEq, Repr

/-- Initial overlay state: no notification received yet. -/
def Overlay.init : Overlay := ⟨AppState.init, none⟩

/-- The three operations reaching the Multiplier Overlay state:
`onRollComplete` from the six-sided die's timer, and the multiply /
reset buttons. -/
inductive OvEv where
  | rollComplete (o : ℤ)
  | multiply (f : ℚ)
  | reset
deriving Repr

/-- One overlay operation, dispatching to the `App.tsx` handlers. -/
def ovStep (e : OvEv) (s : Overlay) : Overlay :=
  match e with
  | OvEv.rollComplete o => ⟨handleRollComplete o s.app, some o⟩
  | OvEv.multiply f => ⟨handleMultiply f s.app, s.lastOutcome⟩
  | OvEv.reset => ⟨handleResetMultiplier s.app, s.lastOutcome⟩

/-- Run a list of overlay operations from the initial overlay state. -/
def ovRun (evs : List OvEv) : Overlay := evs.foldl (fun s e => ovStep e s) Overlay.init

/-- The multiply buttons rendered by `App.tsx` expose exactly the factors
`[2, 3, 4, 5, 6]`. -/
def validOvEv : OvEv → Prop
  | OvEv.multiply f => f = 2 ∨ f = 3 ∨ f = 4 ∨ f = 5 ∨ f = 6
  | _ => True

/-- The claimed overlay invariant: `multiplier` is an integer ≥ 1, and a
non-`None` `displayValue` equals the most recently notified outcome times
the current `multiplier`. -/
def ovInv (s : Overlay) : Prop :=
  (∃ n : ℕ, 1 ≤ n ∧ s.app.multiplier = (n : ℚ)) ∧
  ∀ v : ℚ, s.app.displayValue = some v →
    ∃ o : ℤ, s.lastOutcome = some o ∧ v = (o : ℚ) * s.app.multiplier

/-! ## Binary64 semantics of the Multiplier Overlay

`App.tsx` stores `displayValue` and `multiplier` as JavaScript `number`s,
i.e. IEEE-754 binary64 values.  The exact-rational model above captures
the arithmetic the spec describes; to evaluate the overlay at inputs
where binary64 rounding matters, the following model implements
round-to-nearest-even binary64 multiplication and division for positive
values in the normal range (zero, negatives, subnormals and overflow
never arise in the computations evaluated here).  A value `⟨m, e⟩`
denotes `m * 2^e`; an operand produced by these operations has `m < 2^53`,
as a binary64 significand does. -/

/-- Bit length of a natural number, with explicit fuel so that the
recursion is structural (fuel 128 covers every value arising from
binary64 significand arithmetic, which stays below `2^120`). -/
def bitsAux : ℕ → ℕ → ℕ
  | 0, _ => 0
  | fuel + 1, n => if n = 0 then 0 else bitsAux fuel (n / 2) + 1

/-- Bit length of a natural number (`0` has length 0). -/
def bitLen (n : ℕ) : ℕ := bitsAux 128 n

/-- Round `n / 2^s` to the nearest integer, ties to even — the IEEE-754
round-to-nearest-even rule applied to a right shift. -/
def rshiftRound (n s : ℕ) : ℕ :=
  let q := n / 2 ^ s
  let r := n % 2 ^ s
  if 2 * r < 2 ^ s then q
  else if 2 ^ s < 2 * r then q + 1
  else if q % 2 = 0 then q else q + 1

/-- A positive binary64 value `m * 2^e` with integer significand `m` and
binary exponent `e`. -/
structure F64 where
  m : ℕ
  e : ℤ
deriving DecidableEq, Repr

/-- The binary64 value of a small natural number (exact for `n < 2^53`,
which covers every die outcome and factor used here). -/
def F64.ofNat (n : ℕ) : F64 := ⟨n, 0⟩

/-- The exact rational value denoted by a binary64 value. -/
def F64.toRat (a : F64) : ℚ := (a.m : ℚ) * (2 : ℚ) ^ a.e

/-- Binary64 multiplication with round to nearest, ties to even: the
exact integer product of the significands is rounded to 53 bits (a
product of at most 53 significant bits is exact). -/
def F64.mul (a b : F64) : F64 :=
  let p := a.m * b.m
  if bitLen p ≤ 53 then ⟨p, a.e + b.e⟩
  else
    let s := bitLen p - 53
    let q := rshiftRound p s
    if bitLen q ≤ 53 then ⟨q, a.e + b.e + s⟩
    else ⟨q / 2, a.e + b.e + s + 1⟩

/-- Binary64 division with round to nearest, ties to even: the dividend
significand is scaled so that the quotient has exactly 53 bits, the
floor quotient is taken, and the exact remainder decides the rounding
(assumes a nonzero divisor and normalized operands, `m < 2^53`). -/
def F64.div (a b : F64) : F64 :=
  let k0 := 52 + bitLen b.m - bitLen a.m
  let k := if a.m * 2 ^ k0 < b.m * 2 ^ 52 then k0 + 1 else k0
  let n := a.m * 2 ^ k
  let q0 := n / b.m
  let r := n % b.m
  let q :=
    if 2 * r < b.m then q0
    else if b.m < 2 * r then q0 + 1
    else if q0 % 2 = 0 then q0 else q0 + 1
  if q < 2 ^ 53 then ⟨q, a.e - b.e - k⟩
  else ⟨2 ^ 52, a.e - b.e - k + 1⟩

/-- Value comparison of two binary64 values (used for the
`multiplier > 1` guard), by shifting to a common exponent. -/
def F64.blt (a b : F64) : Bool :=
  if a.e ≤ b.e then decide (a.m < b.m * 2 ^ (b.e - a.e).toNat)
  else decide (a.m * 2 ^ (a.e - b.e).toNat < b.m)

/-- The Multiplier Overlay state of `App.tsx` under binary64 semantics:
`displayValue : number | null` and `multiplier : number`. -/
structure OverlayF where
  displayValue : Option F64
  multiplier : F64
deriving DecidableEq, Repr

/-- Initial overlay state: `useState<number | null>(null)`, `useState(1)`. -/
def OverlayF.init : OverlayF := ⟨none, F64.ofNat 1⟩

/-- `handleRollComplete` under binary64 semantics: die outcomes are
small integers, represented exactly. -/
def handleRollCompleteF (value : ℕ) (_ : OverlayF) : OverlayF :=
  ⟨some (F64.ofNat value), F64.ofNat 1⟩

/-- `handleMultiply` under binary64 semantics: both stored numbers are
multiplied by the factor in binary64 arithmetic. -/
def handleMultiplyF (factor : F64) (a : OverlayF) : OverlayF :=
  match a.displayValue with
  | none => a
  | some v => ⟨some (v.mul factor), a.multiplier.mul factor⟩

/-- `handleResetMultiplier` under binary64 semantics: if a display value
is set and `multiplier > 1`, divide `displayValue` by `multiplier` in
binary64 arithmetic and reset `multiplier` to 1. -/
def handleResetMultiplierF (a : OverlayF) : OverlayF :=
  match a.displayValue with
  | none => a
  | some v =>
      if (F64.ofNat 1).blt a.multiplier then ⟨some (v.div a.multiplier), F64.ofNat 1⟩
      else a

/-- The overlay state reached by completing a roll with outcome 7 and
then pressing the ×3 button thirty-four times, in binary64 arithmetic. -/
def mult3Chain : OverlayF :=
  (fun s => handleMultiplyF (F64.ofNat 3) s)^[34] (handleRollCompleteF 7 OverlayF.init)

/-- The overlay state reached from `mult3Chain` by pressing Reset. -/
def resetAfterMult3Chain : OverlayF := handleResetMultiplierF mult3Chain

/-! ## Auxiliary lemmas -/

/-- `handleMultiply` on a set display value, componentwise. -/
lemma handleMultiply_some (f x m : ℚ) (d : DiceType) :
    handleMultiply f ⟨some x, m, d⟩ = ⟨some (x * f), m * f, d⟩ := rfl

/-- `handleMultiply` rewritten through a hypothesis on `displayValue`. -/
lemma handleMultiply_eq_of_some (f : ℚ) (a : AppState) (x : ℚ)
    (h : a.displayValue = some x) :
    handleMultiply f a =
      { a with displayValue := some (x * f), multiplier := a.multiplier * f } := by
  unfold handleMultiply
  rw [h]

/-- `handleMultiply` when no display value is set. -/
lemma handleMultiply_eq_of_none (f : ℚ) (a : AppState) (h : a.displayValue = none) :
    handleMultiply f a = a := by
  unfold handleMultiply
  rw [h]

/-- `handleResetMultiplier` when no display value is set. -/
lemma handleResetMultiplier_eq_of_none (a : AppState) (h : a.displayValue = none) :
    handleResetMultiplier a = a := by
  unfold handleResetMultiplier
  rw [h]

/-- `handleResetMultiplier` on a set display value and `multiplier > 1`. -/
lemma handleResetMultiplier_eq_of_gt (a : AppState) (x : ℚ)
    (h : a.displayValue = some x) (hm : 1 < a.multiplier) :
    handleResetMultiplier a =
      { a with displayValue := some (x / a.multiplier), multiplier := 1 } := by
  unfold handleResetMultiplier
  rw [h]
  dsimp only
  rw [if_pos hm]

/-- `handleResetMultiplier` on a set display value and `multiplier ≤ 1`. -/
lemma handleResetMultiplier_eq_of_le (a : AppState) (x : ℚ)
    (h : a.displayValue = some x) (hm : ¬1 < a.multiplier) :
    handleResetMultiplier a = a := by
  unfold handleResetMultiplier
  rw [h]
  dsimp only
  rw [if_neg hm]

/-- Folding a sequence of `handleMultiply` calls over a set display value
multiplies both the display value and the multiplier by the product of
the factors. -/
lemma foldl_handleMultiply (fs : List ℚ) (x m : ℚ) (d : DiceType) :
    fs.foldl (fun a f => handleMultiply f a) ⟨some x, m, d⟩ =
      ⟨some (x * fs.prod), m * fs.prod, d⟩ := by
  induction fs generalizing x m with
  | nil => simp
  | cons f rest ih =>
      rw [List.foldl_cons, handleMultiply_some, ih, List.prod_cons]
      exact congrArg₂ (fun a b => AppState.mk (some a) b d) (mul_assoc x f rest.prod)
        (mul_assoc m f rest.prod)

/-- A product of factors that are each casts of positive naturals is at
least 1. -/
lemma one_le_prod_of_natCast (fs : List ℚ)
    (hfs : ∀ f ∈ fs, ∃ k : ℕ, 1 ≤ k ∧ f = (k : ℚ)) : 1 ≤ fs.prod := by
  induction fs with
  | nil => simp
  | cons f rest ih =>
      rw [List.prod_cons]
      obtain ⟨k, hk1, hfk⟩ := hfs f (List.mem_cons_self f rest)
      have hf : (1 : ℚ) ≤ f := by
        rw [hfk]; exact_mod_cast hk1
      have hr : (1 : ℚ) ≤ rest.prod := ih fun g hg => hfs g (List.mem_cons_of_mem f hg)
      calc (1 : ℚ) = 1 * 1 := (one_mul 1).symm
        _ ≤ f * rest.prod := mul_le_mul hf hr zero_le_one (le_trans zero_le_one hf)

/-! ## Claim theorems -/

/-- The multiplier round trip in the exact-rational idealization of the
overlay arithmetic (the reading of §4.3 of the spec, where division
exactly undoes the integer multiplications): for any display value set
by a fresh roll and any sequence of `handleMultiply` calls with positive
integer factors, `handleResetMultiplier` restores `displayValue` exactly
and sets `multiplier` to 1.  Under the program's binary64 arithmetic
this fails once the cumulative products round (see
`c3_float_reset_not_exact`). -/
lemma exact_multiplier_round_trip (v : ℤ) (a : AppState) (fs : List ℚ)
    (hfs : ∀ f ∈ fs, ∃ k : ℕ, 1 ≤ k ∧ f = (k : ℚ)) :
    handleResetMultiplier
        (fs.foldl (fun st f => handleMultiply f st) (handleRollComplete v a)) =
      { (fs.foldl (fun st f => handleMultiply f st) (handleRollComplete v a)) with
          displayValue := (handleRollComplete v a).displayValue, multiplier := 1 } := by
  have hfold :
      fs.foldl (fun st f => handleMultiply f st) (handleRollComplete v a) =
        ⟨some ((v : ℚ) * fs.prod), 1 * fs.prod, a.selectedDice⟩ := by
    show fs.foldl (fun st f => handleMultiply f st)
        ⟨some ((v : ℚ)), 1, a.selectedDice⟩ = _
    exact foldl_handleMultiply fs (v : ℚ) 1 a.selectedDice
  have hP : (1 : ℚ) ≤ fs.prod := one_le_prod_of_natCast fs hfs
  rw [hfold]
  show (if 1 < 1 * fs.prod then _ else _) = _
  rcases lt_or_eq_of_le hP with hlt | heq
  · rw [if_pos (by rwa [one_mul])]
    have hne : fs.prod ≠ 0 := ne_of_gt (lt_trans zero_lt_one hlt)
    have : (v : ℚ) * fs.prod / (1 * fs.prod) = (v : ℚ) := by
      rw [one_mul, mul_div_assoc, div_self hne, mul_one]
    simp only [this, handleRollComplete]
  · rw [if_neg (by rw [one_mul, ← heq]; exact lt_irrefl 1)]
    have h1 : (v : ℚ) * fs.prod = (v : ℚ) := by rw [← heq, mul_one]
    have h2 : (1 : ℚ) * fs.prod = 1 := by rw [← heq, mul_one]
    simp only [h1, h2, handleRollComplete]

set_option maxRecDepth 200000 in
/-- Claim C3, evaluated at the failing input under binary64 semantics —
the arithmetic `App.tsx` actually performs on its `number` state:
completing a roll with outcome 7, pressing ×3 thirty-four times and
then Reset leaves `displayValue = 7 + 2⁻⁵⁰` (printed
`7.000000000000001`), not the pre-multiply value 7.  The division does
not exactly undo the multiplications once the cumulative products round
beyond `2^53`, so the claimed exact round-trip fails on the code. -/
theorem c3_float_reset_not_exact :
    resetAfterMult3Chain.displayValue = some ⟨7881299347898369, -50⟩ ∧
    resetAfterMult3Chain.multiplier = F64.ofNat 1 ∧
    F64.toRat ⟨7881299347898369, -50⟩ = 7 + 1 / 2 ^ 50 ∧
    (7 + 1 / 2 ^ 50 : ℚ) ≠ 7 :=
  ⟨by decide, by decide, by norm_num [F64.toRat], by norm_num⟩

set_option maxRecDepth 200000 in
/-- Claim C10, evaluated at the failing input under binary64 semantics:
after outcome 7 and thirty-four ×3 presses, the stored `displayValue`
is `116740271897665984` while the notified outcome times the stored
`multiplier` is `7 × 16677181699666568 = 116740271897665976` — the
claimed invariant `displayValue = outcome × multiplier` fails on the
code once the products round beyond `2^53`. -/
theorem c10_float_invariant_violation :
    mult3Chain.displayValue = some ⟨7296266993604124, 4⟩ ∧
    mult3Chain.multiplier = ⟨8338590849833284, 1⟩ ∧
    F64.toRat ⟨7296266993604124, 4⟩ = 116740271897665984 ∧
    F64.toRat ⟨8338590849833284, 1⟩ = 16677181699666568 ∧
    (116740271897665984 : ℚ) ≠ 7 * 16677181699666568 :=
  ⟨by decide, by decide, by norm_num [F64.toRat], by norm_num [F64.toRat], by norm_num⟩

/-- The overlay invariant holds initially. -/
lemma ovInv_init : ovInv Overlay.init := by
  constructor
  · exact ⟨1, le_refl 1, by simp [Overlay.init, AppState.init]⟩
  · intro v hv
    simp [Overlay.init, AppState.init] at hv

/-- The overlay invariant is preserved by every valid overlay
operation. -/
lemma ovInv_step (e : OvEv) (s : Overlay) (he : validOvEv e) (hs : ovInv s) :
    ovInv (ovStep e s) := by
  obtain ⟨⟨n, hn1, hnm⟩, hdisp⟩ := hs
  cases e with
  | rollComplete o =>
      constructor
      · exact ⟨1, le_refl 1, by simp [ovStep, handleRollComplete]⟩
      · intro v hv
        refine ⟨o, rfl, ?_⟩
        simp only [ovStep, handleRollComplete, Option.some.injEq] at hv
        rw [← hv]
        show ((o : ℚ)) = (o : ℚ) * 1
        rw [mul_one]
  | multiply f =>
      rcases hf : s.app.displayValue with _ | x
      · rw [show ovStep (OvEv.multiply f) s = ⟨handleMultiply f s.app, s.lastOutcome⟩ from rfl,
          handleMultiply_eq_of_none f s.app hf]
        exact ⟨⟨n, hn1, hnm⟩, hdisp⟩
      · obtain ⟨k, hk1, hfk⟩ : ∃ k : ℕ, 1 ≤ k ∧ f = (k : ℚ) := by
          rcases he with h | h | h | h | h
          · exact ⟨2, by norm_num, by rw [h]; norm_num⟩
          · exact ⟨3, by norm_num, by rw [h]; norm_num⟩
          · exact ⟨4, by norm_num, by rw [h]; norm_num⟩
          · exact ⟨5, by norm_num, by rw [h]; norm_num⟩
          · exact ⟨6, by norm_num, by rw [h]; norm_num⟩
        rw [show ovStep (OvEv.multiply f) s = ⟨handleMultiply f s.app, s.lastOutcome⟩ from rfl,
          handleMultiply_eq_of_some f s.app x hf]
        constructor
        · refine ⟨n * k, le_trans hn1 (Nat.le_mul_of_pos_right n hk1), ?_⟩
          show s.app.multiplier * f = ((n * k : ℕ) : ℚ)
          rw [hnm, hfk]
          push_cast
          ring
        · intro v hv
          obtain ⟨o, ho, hvo⟩ := hdisp x hf
          refine ⟨o, ho, ?_⟩
          simp only [Option.some.injEq] at hv
          rw [← hv, hvo]
          show (o : ℚ) * s.app.multiplier * f = (o : ℚ) * (s.app.multiplier * f)
          exact mul_assoc _ _ _
  | reset =>
      rcases hf : s.app.displayValue with _ | x
      · rw [show ovStep OvEv.reset s = ⟨handleResetMultiplier s.app, s.lastOutcome⟩ from rfl,
          handleResetMultiplier_eq_of_none s.app hf]
        exact ⟨⟨n, hn1, hnm⟩, hdisp⟩
      · by_cases hm : 1 < s.app.multiplier
        · rw [show ovStep OvEv.reset s = ⟨handleResetMultiplier s.app, s.lastOutcome⟩ from rfl,
            handleResetMultiplier_eq_of_gt s.app x hf hm]
          constructor
          · exact ⟨1, le_refl 1, by norm_num⟩
          · intro v hv
            obtain ⟨o, ho, hvo⟩ := hdisp x hf
            refine ⟨o, ho, ?_⟩
            simp only [Option.some.injEq] at hv
            have hmne : s.app.multiplier ≠ 0 := ne_of_gt (lt_trans zero_lt_one hm)
            rw [← hv, hvo]
            show (o : ℚ) * s.app.multiplier / s.app.multiplier = (o : ℚ) * 1
            rw [mul_div_assoc, div_self hmne]
        · rw [show ovStep OvEv.reset s = ⟨handleResetMultiplier s.app, s.lastOutcome⟩ from rfl,
            handleResetMultiplier_eq_of_le s.app x hf hm]
          exact ⟨⟨n, hn1, hnm⟩, hdisp⟩

/-- The overlay invariant propagates along any valid operation list. -/
lemma ovInv_foldl (evs : List OvEv) : ∀ s : Overlay, (∀ e ∈ evs, validOvEv e) →
    ovInv s → ovInv (evs.foldl (fun st e => ovStep e st) s) := by
  induction evs with
  | nil => intro s _ hs; exact hs
  | cons e rest ih =>
      intro s hevs hs
      rw [List.foldl_cons]
      exact ih (ovStep e s) (fun g hg => hevs g (List.mem_cons_of_mem e hg))
        (ovInv_step e s (hevs e (List.mem_cons_self e rest)) hs)

/-- The Multiplier Overlay invariant in the exact-rational idealization
of the overlay arithmetic — a set `displayValue` equals the most
recently notified outcome times the current `multiplier`, and
`multiplier` is an integer ≥ 1 — is preserved by every interleaving of
`onRollComplete`, `multiply` with factors from `{2, 3, 4, 5, 6}`, and
`resetMultiplier`.  Under the program's binary64 arithmetic the equality
fails once the products round beyond `2^53` (see
`c10_float_invariant_violation`). -/
lemma exact_overlay_invariant (evs : List OvEv) (hevs : ∀ e ∈ evs, validOvEv e) :
    ovInv (ovRun evs) :=
  ovInv_foldl evs Overlay.init hevs ovInv_init

/-- The outcome policy lands in `[1, n]` for every uniform draw in
`[0, 1)` and every positive face count. -/
lemma rollResult_mem (n : ℕ) (hn : 1 ≤ n) (u : ℚ) (h0 : 0 ≤ u) (h1 : u < 1) :
    1 ≤ rollResult n u ∧ rollResult n u ≤ (n : ℤ) := by
  unfold rollResult
  have hn0 : (0 : ℚ) < (n : ℚ) := by exact_mod_cast hn
  constructor
  · have : (0 : ℤ) ≤ ⌊u * (n : ℚ)⌋ :=
      Int.floor_nonneg.mpr (mul_nonneg h0 (le_of_lt hn0))
    omega
  · have hlt : u * (n : ℚ) < ((n : ℤ) : ℚ) := by
      push_cast
      exact mul_lt_of_lt_one_left hn0 h1
    have : ⌊u * (n : ℚ)⌋ < (n : ℤ) := Int.floor_lt.mpr hlt
    omega

/-- Claim C5: for each `N ∈ {6, 20}` and each uniform draw
`u ∈ [0, 1)`, the resolved outcome `rollResult N u` — the embedding of
`Math.floor(Math.random() * N) + 1` — is an integer in `[1, N]`. -/
theorem c5_outcome_in_range (u : ℚ) (h0 : 0 ≤ u) (h1 : u < 1) :
    (1 ≤ rollResult 6 u ∧ rollResult 6 u ≤ 6) ∧
      (1 ≤ rollResult 20 u ∧ rollResult 20 u ≤ 20) :=
  ⟨rollResult_mem 6 (by norm_num) u h0 h1, rollResult_mem 20 (by norm_num) u h0 h1⟩

/-- Witness for C5: the draw `u = 0` is admissible and yields in-range
outcomes for both dice. -/
theorem c5_outcome_in_range_witness :
    (1 ≤ rollResult 6 0 ∧ rollResult 6 0 ≤ 6) ∧
      (1 ≤ rollResult 20 0 ∧ rollResult 20 0 ≤ 20) :=
  c5_outcome_in_range 0 (le_refl 0) zero_lt_one

/-- The twenty-sided table has one entry per face. -/
lemma d20FaceUpRotations_length : d20FaceUpRotations.length = 20 := rfl

/-- The six-sided table has one entry per face. -/
lemma d6FaceUpRotations_length : d6FaceUpRotations.length = 6 := rfl

/-- Claim C7: the Face-Orientation Table lookups are total over
`1..N` — every outcome of the twenty-sided die (resp. six-sided die)
indexes an existing entry — and deterministic: looking the same outcome
up twice yields the identical rotation triple. -/
theorem c7_orientation_total_deterministic :
    (∀ o : ℕ, 1 ≤ o → o ≤ 20 → (d20OrientationOf o).isSome = true) ∧
    (∀ o : ℕ, 1 ≤ o → o ≤ 6 → (d6OrientationOf o).isSome = true) ∧
    (∀ o : ℕ, d20OrientationOf o = d20OrientationOf o ∧
      d6OrientationOf o = d6OrientationOf o) := by
  refine ⟨?_, ?_, fun o => ⟨rfl, rfl⟩⟩
  · intro o h1 h2
    unfold d20OrientationOf
    have hlt : o - 1 < d20FaceUpRotations.length := by
      rw [d20FaceUpRotations_length]
      omega
    rw [List.getElem?_eq_getElem hlt]
    rfl
  · intro o h1 h2
    unfold d6OrientationOf
    have hlt : o - 1 < d6FaceUpRotations.length := by
      rw [d6FaceUpRotations_length]
      omega
    rw [List.getElem?_eq_getElem hlt]
    rfl

/-- Witness for C7: outcome 7 of the twenty-sided die and outcome 3 of
the six-sided die both hit existing entries. -/
theorem c7_orientation_total_deterministic_witness :
    (d20OrientationOf 7).isSome = true ∧ (d6OrientationOf 3).isSome = true :=
  ⟨c7_orientation_total_deterministic.1 7 (by decide) (by decide),
   c7_orientation_total_deterministic.2.1 3 (by decide) (by decide)⟩

/-- Claim C8: the twenty-sided result overlay text is a function of the
outcome — 20 renders `"CRITICAL HIT!"`, 1 renders `"CRITICAL FAIL!"`,
any `k ∈ [2, 19]` renders `"Rolled: k"` — and it is shown only when an
outcome is set and the die is not rolling. -/
theorem c8_d20_result_text :
    (∀ k : ℤ, 2 ≤ k → k ≤ 19 →
        d20ResultText (some k) false = some ("Rolled: " ++ toString k)) ∧
    d20ResultText (some 20) false = some "CRITICAL HIT!" ∧
    d20ResultText (some 1) false = some "CRITICAL FAIL!" ∧
    (∀ b : Bool, d20ResultText none b = none) ∧
    (∀ v : ℤ, d20ResultText (some v) true = none) := by
  refine ⟨?_, rfl, rfl, fun b => rfl, ?_⟩
  · intro k h2 h19
    unfold d20ResultText
    dsimp only
    rw [if_neg (by omega : ¬k = 0)]
    rw [if_neg (by simp : ¬false = true)]
    rw [if_neg (by omega : ¬k = 20), if_neg (by omega : ¬k = 1)]
  · intro v
    unfold d20ResultText
    dsimp only
    by_cases hv : v = 0
    · rw [if_pos hv]
    · rw [if_neg hv, if_pos rfl]

/-- Witness for C8: outcome 7 while not rolling renders `"Rolled: 7"`. -/
theorem c8_d20_result_text_witness :
    d20ResultText (some 7) false = some ("Rolled: " ++ toString (7 : ℤ)) :=
  c8_d20_result_text.1 7 (by decide) (by decide)

/-- Claim C6: in the Settling phase of the six-sided die, each frame
updates every rotation axis by `current = lerp(current, target, 25 * dt)`;
settling ends exactly when all three updated axes are within 0.1 radians
of the target, at which point the orientation is hard-snapped to the
exact target rotation. -/
theorem c6_d6_settling_frame (rot target : Rot3) (delta : ℚ) :
    ((d6SettleFrame rot target delta).2 = false ↔
      |lerp rot.x target.x (25 * delta) - target.x| < 0.1 ∧
      |lerp rot.y target.y (25 * delta) - target.y| < 0.1 ∧
      |lerp rot.z target.z (25 * delta) - target.z| < 0.1) ∧
    ((d6SettleFrame rot target delta).2 = false →
      (d6SettleFrame rot target delta).1 = ⟨target.x, target.y, target.z⟩) ∧
    ((d6SettleFrame rot target delta).2 = true →
      (d6SettleFrame rot target delta).1 =
        ⟨lerp rot.x target.x (25 * delta), lerp rot.y target.y (25 * delta),
          lerp rot.z target.z (25 * delta)⟩) := by
  unfold d6SettleFrame
  dsimp only
  split_ifs with h
  · exact ⟨iff_of_true rfl h, fun _ => rfl, fun hc => absurd hc (by simp)⟩
  · exact ⟨iff_of_false (by simp) h, fun hc => absurd hc (by simp), fun _ => rfl⟩

/-- Witness for C6: from rotation `(0, 0, 0)` toward target `(1, 0, 0)`
with `delta = 1/100`, the lerp factor is `1/4`, the x axis stays `3/4`
away from the target, and settling continues with the lerped rotation. -/
theorem c6_d6_settling_frame_witness :
    (d6SettleFrame ⟨0, 0, 0⟩ ⟨1, 0, 0⟩ (1/100)).1 =
      ⟨lerp 0 1 (25 * (1/100)), lerp 0 0 (25 * (1/100)), lerp 0 0 (25 * (1/100))⟩ :=
  (c6_d6_settling_frame ⟨0, 0, 0⟩ ⟨1, 0, 0⟩ (1/100)).2.2
    (by
      cases hb : (d6SettleFrame ⟨0, 0, 0⟩ ⟨1, 0, 0⟩ (1/100)).2 with
      | false =>
          refine absurd ((c6_d6_settling_frame ⟨0, 0, 0⟩ ⟨1, 0, 0⟩ (1/100)).1.mp hb) ?_
          norm_num [lerp]
          rw [abs_of_nonneg (by norm_num : (0:ℚ) ≤ 3/4)]
          norm_num
      | true => rfl)


/-- Firing a timer scheduled by the still-mounted six-sided instance:
the component state resolves and starts settling, and the notification
reaches the `App`. -/
lemma fireTimer_d6_live (u : ℚ) (s : Sys) (ow : ℕ) (rest : List Timer)
    (ht : s.timers = ⟨ow, DiceType.d6⟩ :: rest) (ho : ow = s.instId) :
    fireTimer u s =
      { s with
          d6 := ⟨false, some (rollResult 6 u), true⟩,
          timers := rest,
          app := handleRollComplete (rollResult 6 u) s.app,
          notifLog := s.notifLog ++ [rollResult 6 u] } := by
  unfold fireTimer
  rw [ht]
  dsimp only
  rw [if_pos ho]

/-- Firing a six-sided timer whose instance has been unmounted: the
component state setters are no-ops, but the notification still reaches
the `App`. -/
lemma fireTimer_d6_stale (u : ℚ) (s : Sys) (ow : ℕ) (rest : List Timer)
    (ht : s.timers = ⟨ow, DiceType.d6⟩ :: rest) (ho : ¬ow = s.instId) :
    fireTimer u s =
      { s with
          timers := rest,
          app := handleRollComplete (rollResult 6 u) s.app,
          notifLog := s.notifLog ++ [rollResult 6 u] } := by
  unfold fireTimer
  rw [ht]
  dsimp only
  rw [if_neg ho]

/-- Firing a timer scheduled by the still-mounted twenty-sided instance:
the component state resolves; nothing else changes. -/
lemma fireTimer_d20_live (u : ℚ) (s : Sys) (ow : ℕ) (rest : List Timer)
    (ht : s.timers = ⟨ow, DiceType.d20⟩ :: rest) (ho : ow = s.instId) :
    fireTimer u s =
      { s with
          d20 := ⟨false, some (rollResult 20 u)⟩,
          timers := rest } := by
  unfold fireTimer
  rw [ht]
  dsimp only
  rw [if_pos ho]

/-- Firing a twenty-sided timer whose instance has been unmounted: a
pure no-op besides consuming the timer. -/
lemma fireTimer_d20_stale (u : ℚ) (s : Sys) (ow : ℕ) (rest : List Timer)
    (ht : s.timers = ⟨ow, DiceType.d20⟩ :: rest) (ho : ¬ow = s.instId) :
    fireTimer u s = { s with timers := rest } := by
  unfold fireTimer
  rw [ht]
  dsimp only
  rw [if_neg ho]

/-- A click on the mounted six-sided die while it is rolling is ignored
by the guard clause. -/
lemma step_click_d6_rolling (s : Sys) (hsel : s.app.selectedDice = DiceType.d6)
    (h : s.d6.isRolling = true) : step Ev.click s = s := by
  unfold step
  rw [hsel]
  dsimp only
  unfold d6HandleClick
  rw [h]
  exact if_pos rfl

/-- A click on the mounted six-sided die while it is not rolling starts
a roll: `isRolling` set, `rollValue` cleared, a timer scheduled. -/
lemma step_click_d6_idle (s : Sys) (hsel : s.app.selectedDice = DiceType.d6)
    (h : s.d6.isRolling = false) :
    step Ev.click s =
      { s with
          d6 := { s.d6 with isRolling := true, rollValue := none },
          timers := s.timers ++ [⟨s.instId, DiceType.d6⟩] } := by
  unfold step
  rw [hsel]
  dsimp only
  unfold d6HandleClick
  rw [h]
  exact if_neg Bool.false_ne_true

/-- A click on the mounted twenty-sided die while it is rolling is
ignored by the guard clause. -/
lemma step_click_d20_rolling (s : Sys) (hsel : s.app.selectedDice = DiceType.d20)
    (h : s.d20.isRolling = true) : step Ev.click s = s := by
  unfold step
  rw [hsel]
  dsimp only
  unfold d20HandleClick
  rw [h]
  exact if_pos rfl

/-- A click on the mounted twenty-sided die while it is not rolling
starts a roll. -/
lemma step_click_d20_idle (s : Sys) (hsel : s.app.selectedDice = DiceType.d20)
    (h : s.d20.isRolling = false) :
    step Ev.click s =
      { s with
          d20 := { s.d20 with isRolling := true, rollValue := none },
          timers := s.timers ++ [⟨s.instId, DiceType.d20⟩] } := by
  unfold step
  rw [hsel]
  dsimp only
  unfold d20HandleClick
  rw [h]
  exact if_neg Bool.false_ne_true

/-- A draw of 0 yields outcome 1 on any die. -/
lemma rollResult_zero (n : ℕ) : rollResult n 0 = 1 := by
  simp [rollResult]

/-- Claim C1, counterexample: on the twenty-sided die, a completed roll
(click, then the 1500 ms timer fires with draw 0) sets `rollValue` to
outcome 1 yet delivers no roll-completion notification at all — the
notification log stays empty, so the notification is not fired once per
completed roll for every die variant. -/
theorem c1_counterexample :
    (run [Ev.click, Ev.fire 0]).d20.isRolling = false ∧
    (run [Ev.click, Ev.fire 0]).d20.rollValue = some (rollResult 20 0) ∧
    rollResult 20 0 = 1 ∧
    (run [Ev.click, Ev.fire 0]).notifLog = [] :=
  ⟨rfl, rfl, rollResult_zero 20, rfl⟩

/-- Claim C1 as amended: only the six-sided die fires the
roll-completion notification.  Firing a six-sided completion timer
appends exactly one notification carrying the raw outcome; firing a
twenty-sided completion timer appends none. -/
theorem c1_amended_notification (s : Sys) (u : ℚ) (ow : ℕ) (rest : List Timer) :
    (s.timers = ⟨ow, DiceType.d6⟩ :: rest →
      (fireTimer u s).notifLog = s.notifLog ++ [rollResult 6 u]) ∧
    (s.timers = ⟨ow, DiceType.d20⟩ :: rest →
      (fireTimer u s).notifLog = s.notifLog) := by
  constructor
  · intro ht
    by_cases ho : ow = s.instId
    · rw [fireTimer_d6_live u s ow rest ht ho]
    · rw [fireTimer_d6_stale u s ow rest ht ho]
  · intro ht
    by_cases ho : ow = s.instId
    · rw [fireTimer_d20_live u s ow rest ht ho]
    · rw [fireTimer_d20_stale u s ow rest ht ho]

/-- Witness for amended C1: completing the six-sided roll scheduled
after switching to the six-sided die delivers exactly its outcome. -/
theorem c1_amended_notification_witness :
    (fireTimer 0 (run [Ev.switch DiceType.d6, Ev.click])).notifLog =
      (run [Ev.switch DiceType.d6, Ev.click]).notifLog ++ [rollResult 6 0] :=
  (c1_amended_notification (run [Ev.switch DiceType.d6, Ev.click]) 0 1 []).1 rfl

/-- Claim C2, counterexample: with the six-sided die in the Settling
phase (reached by switch, click, timer fire), a click is not a no-op —
it clears `rollValue`, re-enters Rolling, and schedules a second
completion timer. -/
theorem c2_counterexample :
    (run [Ev.switch DiceType.d6, Ev.click, Ev.fire 0]).d6.isSettling = true ∧
    (run [Ev.switch DiceType.d6, Ev.click, Ev.fire 0]).d6.isRolling = false ∧
    (run [Ev.switch DiceType.d6, Ev.click, Ev.fire 0]).d6.rollValue =
      some (rollResult 6 0) ∧
    (run [Ev.switch DiceType.d6, Ev.click, Ev.fire 0]).timers = [] ∧
    (step Ev.click (run [Ev.switch DiceType.d6, Ev.click, Ev.fire 0])).d6.rollValue =
      none ∧
    (step Ev.click (run [Ev.switch DiceType.d6, Ev.click, Ev.fire 0])).d6.isRolling =
      true ∧
    (step Ev.click (run [Ev.switch DiceType.d6, Ev.click, Ev.fire 0])).timers =
      [⟨1, DiceType.d6⟩] :=
  ⟨rfl, rfl, rfl, rfl, rfl, rfl, rfl⟩

/-- Claim C2 as amended: clicking while Rolling is a no-op for both die
variants (state unchanged, no second timer); but on the six-sided die,
clicking while Settling and not Rolling starts a fresh roll — it clears
`rollValue`, sets Rolling, and schedules another completion timer. -/
theorem c2_amended_click_guard (s : Sys) :
    (s.app.selectedDice = DiceType.d6 → s.d6.isRolling = true →
      step Ev.click s = s) ∧
    (s.app.selectedDice = DiceType.d20 → s.d20.isRolling = true →
      step Ev.click s = s) ∧
    (s.app.selectedDice = DiceType.d6 → s.d6.isRolling = false →
      s.d6.isSettling = true →
      (step Ev.click s).d6.isRolling = true ∧
      (step Ev.click s).d6.rollValue = none ∧
      (step Ev.click s).timers = s.timers ++ [⟨s.instId, DiceType.d6⟩]) := by
  refine ⟨fun hsel h => step_click_d6_rolling s hsel h,
    fun hsel h => step_click_d20_rolling s hsel h, fun hsel h _ => ?_⟩
  rw [step_click_d6_idle s hsel h]
  exact ⟨rfl, rfl, rfl⟩

/-- Witness for amended C2: while the six-sided die is rolling, a second
click leaves the whole system state unchanged. -/
theorem c2_amended_click_guard_witness :
    step Ev.click (run [Ev.switch DiceType.d6, Ev.click]) =
      run [Ev.switch DiceType.d6, Ev.click] :=
  (c2_amended_click_guard (run [Ev.switch DiceType.d6, Ev.click])).1 rfl rfl

/-- Claim C4, counterexample: switch to the six-sided die, click, switch
back to the twenty-sided die while the roll is in flight (the pending
timer's owner is instance 1, the mounted instance is 2); before the
timer fires, `displayValue` is `none`, and when the stale timer fires it
mutates the Multiplier Overlay's `displayValue` to the stale outcome. -/
theorem c4_counterexample :
    (run [Ev.switch DiceType.d6, Ev.click, Ev.switch DiceType.d20]).app.displayValue =
      none ∧
    (run [Ev.switch DiceType.d6, Ev.click, Ev.switch DiceType.d20]).timers =
      [⟨1, DiceType.d6⟩] ∧
    (run [Ev.switch DiceType.d6, Ev.click, Ev.switch DiceType.d20]).instId = 2 ∧
    (step (Ev.fire 0)
        (run [Ev.switch DiceType.d6, Ev.click, Ev.switch DiceType.d20])).app.displayValue =
      some ((rollResult 6 0 : ℤ) : ℚ) :=
  ⟨rfl, rfl, rfl, rfl⟩

/-- Claim C4 as amended: a pending completion timer of an unmounted die
instance never mutates either mounted die's component state; but a stale
six-sided timer still fires the roll-completion notification,
overwriting the Multiplier Overlay's `displayValue` with the stale
outcome and resetting `multiplier` to 1.  A stale twenty-sided timer
leaves the `App` state untouched. -/
theorem c4_amended_stale_timer (s : Sys) (u : ℚ) (ow : ℕ) (rest : List Timer)
    (ho : ¬ow = s.instId) :
    (s.timers = ⟨ow, DiceType.d6⟩ :: rest →
      (fireTimer u s).d6 = s.d6 ∧ (fireTimer u s).d20 = s.d20 ∧
      (fireTimer u s).app.displayValue = some ((rollResult 6 u : ℤ) : ℚ) ∧
      (fireTimer u s).app.multiplier = 1) ∧
    (s.timers = ⟨ow, DiceType.d20⟩ :: rest →
      (fireTimer u s).d6 = s.d6 ∧ (fireTimer u s).d20 = s.d20 ∧
      (fireTimer u s).app = s.app) := by
  constructor
  · intro ht
    rw [fireTimer_d6_stale u s ow rest ht ho]
    exact ⟨rfl, rfl, rfl, rfl⟩
  · intro ht
    rw [fireTimer_d20_stale u s ow rest ht ho]
    exact ⟨rfl, rfl, rfl⟩

/-- Witness for amended C4: in the counterexample trace, the stale
six-sided timer leaves both mounted dice untouched while resetting the
overlay to the stale outcome. -/
theorem c4_amended_stale_timer_witness :
    (fireTimer 0 (run [Ev.switch DiceType.d6, Ev.click, Ev.switch DiceType.d20])).d6 =
      (run [Ev.switch DiceType.d6, Ev.click, Ev.switch DiceType.d20]).d6 ∧
    (fireTimer 0 (run [Ev.switch DiceType.d6, Ev.click, Ev.switch DiceType.d20])).d20 =
      (run [Ev.switch DiceType.d6, Ev.click, Ev.switch DiceType.d20]).d20 ∧
    (fireTimer 0
        (run [Ev.switch DiceType.d6, Ev.click, Ev.switch DiceType.d20])).app.displayValue =
      some ((rollResult 6 0 : ℤ) : ℚ) ∧
    (fireTimer 0
        (run [Ev.switch DiceType.d6, Ev.click, Ev.switch DiceType.d20])).app.multiplier =
      1 :=
  (c4_amended_stale_timer (run [Ev.switch DiceType.d6, Ev.click, Ev.switch DiceType.d20])
    0 1 [] (by decide)).1 rfl

/-- Claim C9: switching the active die type (and clicking) leaves the
Multiplier Overlay state unchanged — `displayValue` and `multiplier`
keep their values — and the overlay is reset only by a six-sided
roll-completion notification: firing with no pending timer is a no-op,
a twenty-sided completion leaves the `App` state unchanged, and a
six-sided completion sets `displayValue` to the outcome and `multiplier`
to 1. -/
theorem c9_switch_preserves_overlay (s : Sys) (d : DiceType) (u : ℚ) :
    ((step (Ev.switch d) s).app.displayValue = s.app.displayValue ∧
      (step (Ev.switch d) s).app.multiplier = s.app.multiplier) ∧
    ((step Ev.click s).app.displayValue = s.app.displayValue ∧
      (step Ev.click s).app.multiplier = s.app.multiplier) ∧
    (s.timers = [] → step (Ev.fire u) s = s) ∧
    (∀ ow rest, s.timers = ⟨ow, DiceType.d20⟩ :: rest →
      (step (Ev.fire u) s).app = s.app) ∧
    (∀ ow rest, s.timers = ⟨ow, DiceType.d6⟩ :: rest →
      (step (Ev.fire u) s).app.displayValue = some ((rollResult 6 u : ℤ) : ℚ) ∧
      (step (Ev.fire u) s).app.multiplier = 1) := by
  refine ⟨?_, ?_, ?_, ?_, ?_⟩
  · show ((switchDie d s).app.displayValue = _ ∧ (switchDie d s).app.multiplier = _)
    unfold switchDie
    by_cases hd : s.app.selectedDice = d
    · rw [if_pos hd]
      exact ⟨rfl, rfl⟩
    · rw [if_neg hd]
      exact ⟨rfl, rfl⟩
  · cases hsel : s.app.selectedDice with
    | d6 =>
        cases h : s.d6.isRolling with
        | true => rw [step_click_d6_rolling s hsel h]; exact ⟨rfl, rfl⟩
        | false => rw [step_click_d6_idle s hsel h]; exact ⟨rfl, rfl⟩
    | d20 =>
        cases h : s.d20.isRolling with
        | true => rw [step_click_d20_rolling s hsel h]; exact ⟨rfl, rfl⟩
        | false => rw [step_click_d20_idle s hsel h]; exact ⟨rfl, rfl⟩
  · intro ht
    show fireTimer u s = s
    unfold fireTimer
    rw [ht]
  · intro ow rest ht
    show (fireTimer u s).app = s.app
    by_cases ho : ow = s.instId
    · rw [fireTimer_d20_live u s ow rest ht ho]
    · rw [fireTimer_d20_stale u s ow rest ht ho]
  · intro ow rest ht
    show (fireTimer u s).app.displayValue = _ ∧ (fireTimer u s).app.multiplier = _
    by_cases ho : ow = s.instId
    · rw [fireTimer_d6_live u s ow rest ht ho]
      exact ⟨rfl, rfl⟩
    · rw [fireTimer_d6_stale u s ow rest ht ho]
      exact ⟨rfl, rfl⟩

/-- Witness for C9: after a six-sided roll completes (overlay shows its
outcome), switching to the twenty-sided die leaves `displayValue` and
`multiplier` unchanged. -/
theorem c9_switch_preserves_overlay_witness :
    (step (Ev.switch DiceType.d20)
        (run [Ev.switch DiceType.d6, Ev.click, Ev.fire 0])).app.displayValue =
      (run [Ev.switch DiceType.d6, Ev.click, Ev.fire 0]).app.displayValue ∧
    (step (Ev.switch DiceType.d20)
        (run [Ev.switch DiceType.d6, Ev.click, Ev.fire 0])).app.multiplier =
      (run [Ev.switch DiceType.d6, Ev.click, Ev.fire 0]).app.multiplier :=
  (c9_switch_preserves_overlay (run [Ev.switch DiceType.d6, Ev.click, Ev.fire 0])
    DiceType.d20 0).1

end DndApp
